import Mathlib

/-!
Verification of the JobFindrAI backend services against their
natural-language specification.  The TypeScript services are shallowly
embedded: pure computations become Lean functions, network calls become
explicit environment oracles (`Except` captures a thrown exception), the
in-memory storage becomes association lists with JS `Map` semantics, and
JS numbers in score computations are modelled as exact rationals.
-/

namespace JobFindr

/-! ## JS string primitives

`jsToLower` models `String.prototype.toLowerCase` (the strings compared in
this codebase are ASCII), `jsIncludes s sub` models `s.includes(sub)`. -/

def jsToLower (s : String) : String := String.mk (s.toList.map Char.toLower)

def listIsSub (sub s : List Char) : Bool :=
  s.tails.any (fun t => sub.isPrefixOf t)

def jsIncludes (s sub : String) : Bool :=
  listIsSub sub.toList s.toList

/-- JS string coercion of a nullable value used as `x + ' '`: `null` prints
as the four characters of the word null. -/
def jsStrCoerce : Option String → String
  | some s => s
  | none => "null"

/-- JS `x || ''` on a nullable string: `null` and the empty string are both
falsy, and both give the empty string. -/
def jsOrEmpty : Option String → String
  | some s => s
  | none => ""

/-! ## C1: LLM provider selection and fallback

Embedding of `LLMService` from `server/services/intelligentApplications.ts`.
The network is an oracle: `openaiProbe` is the outcome of the probe chat
completion, `ollamaTags` the outcome of fetching the local Ollama tags
endpoint (`.error` = fetch threw, `.ok b` = responded with `response.ok = b`),
and `generate p` the outcome of running the provider `p`'s generation client
on the prompt at hand. -/

inductive Provider where
  | openai
  | ollama
  | huggingface
deriving DecidableEq, Repr

structure LLMEnv where
  openaiApiKey : Option String
  openaiProbe : Except String Unit
  ollamaTags : Except String Bool
  generate : Provider → Except String String

/-- Truthiness of `process.env.OPENAI_API_KEY`: unset or empty is falsy. -/
def envKeyTruthy (env : LLMEnv) : Bool :=
  match env.openaiApiKey with
  | some s => s != ""
  | none => false

def exceptOk {ε α : Type} : Except ε α → Bool
  | .ok _ => true
  | .error _ => false

/-- Embeds `LLMService.getAvailableProvider`: probe OpenAI when a key is set, else
probe the local Ollama tags endpoint, else fall back to Hugging Face. -/
def getAvailableProvider (env : LLMEnv) : Provider :=
  match envKeyTruthy env, env.openaiProbe with
  | true, .ok _ => .openai
  | _, _ =>
    match env.ollamaTags with
    | .ok true => .ollama
    | _ => .huggingface

/-- Embeds `LLMService.getFallbackResponse`: static canned text keyed on substrings
of the lower-cased prompt.  The JSON payloads are reproduced verbatim. -/
def getFallbackResponse (prompt : String) : String :=
  if jsIncludes (jsToLower prompt) "skill" then
    "\x7b\"skills\":[\"JavaScript\",\"React\",\"Node.js\",\"Python\",\"SQL\",\"Git\",\"HTML\",\"CSS\"]\x7d"
  else if jsIncludes (jsToLower prompt) "ats" then
    "\x7b\"score\":75,\"issues\":[\"Consider using standard section headings\",\"Add more keywords\"],\"recommendations\":[\"Use bullet points for achievements\",\"Include relevant technical skills\"]\x7d"
  else if jsIncludes (jsToLower prompt) "keyword" then
    "\x7b\"matchedKeywords\":[\"JavaScript\",\"React\",\"Frontend\"],\"missingKeywords\":[\"TypeScript\",\"Testing\",\"AWS\"],\"matchScore\":65,\"suggestions\":[\"Add missing technical skills\",\"Include cloud platform experience\"]\x7d"
  else if jsIncludes (jsToLower prompt) "cover letter" then
    "\x7b\"content\":\"Dear Hiring Manager,\n\nI am excited to apply for this position. My technical background and passion for software development make me a strong candidate.\n\nI look forward to discussing how I can contribute to your team.\n\nBest regards\",\"tone\":\"professional\",\"keyPoints\":[\"Technical skills alignment\",\"Enthusiasm for role\",\"Team contribution\"]\x7d"
  else
    "I apologize, but I\x27m currently unable to process this request. Please try again later or consider setting up a local LLM with Ollama."

/-- Embeds `LLMService.generateText`: pick the available provider, run it, and on a
thrown error return the static fallback text instead of propagating. -/
def generateText (env : LLMEnv) (prompt : String) : String :=
  match env.generate (getAvailableProvider env) with
  | .ok s => s
  | .error _ => getFallbackResponse prompt

/-! ## Data model (shared/schema.ts)

Timestamps are modelled as natural numbers of milliseconds; `jsonb` payloads
are modelled as strings.  Nullable columns are `Option`s. -/

structure User where
  id : String
  username : String
  password : String
  deriving DecidableEq, Repr

structure InsertUser where
  username : String
  password : String
  deriving DecidableEq, Repr

structure Job where
  id : String
  title : String
  company : String
  location : Option String
  description : Option String
  requirements : Option String
  salary : Option String
  jobBoard : String
  externalId : String
  url : String
  isActive : Bool
  discoveredAt : Nat
  deriving DecidableEq, Repr

structure InsertJob where
  title : String
  company : String
  location : Option String
  description : Option String
  requirements : Option String
  salary : Option String
  jobBoard : String
  externalId : String
  url : String
  isActive : Option Bool
  deriving DecidableEq, Repr

structure Resume where
  id : String
  userId : String
  name : String
  originalFileName : String
  filePath : String
  content : String
  skills : Option (List String)
  experience : Option String
  isDefault : Option Bool
  createdAt : Nat
  deriving DecidableEq, Repr

structure InsertResume where
  userId : String
  name : String
  originalFileName : String
  filePath : String
  content : String
  skills : Option (List String)
  experience : Option String
  isDefault : Option Bool
  deriving DecidableEq, Repr

structure JobApplication where
  id : String
  userId : String
  jobId : String
  resumeId : String
  coverLetter : Option String
  status : String
  appliedAt : Nat
  lastUpdated : Nat
  notes : Option String
  deriving DecidableEq, Repr

structure InsertJobApplication where
  userId : String
  jobId : String
  resumeId : String
  coverLetter : Option String
  status : Option String
  notes : Option String
  deriving DecidableEq, Repr

structure CoverLetter where
  id : String
  userId : String
  jobId : String
  content : String
  isGenerated : Bool
  generatedAt : Nat
  deriving DecidableEq, Repr

structure InsertCoverLetter where
  userId : String
  jobId : String
  content : String
  isGenerated : Option Bool
  deriving DecidableEq, Repr

structure AutomationLog where
  id : String
  userId : String
  action : String
  details : String
  status : String
  timestamp : Nat
  deriving DecidableEq, Repr

structure InsertAutomationLog where
  userId : String
  action : String
  details : Option String
  status : String
  deriving DecidableEq, Repr

structure JobSearchConfig where
  id : String
  userId : String
  keywords : List String
  locations : List String
  jobBoards : List String
  salaryMin : Option Int
  salaryMax : Option Int
  experienceLevel : Option String
  isActive : Bool
  createdAt : Nat
  deriving DecidableEq, Repr

/-! ## C2 / C9: AIJobMatcherService (aiJobMatcher.ts)

`analyzeJobMatch` sends a prompt to the LLM; the parsed JSON reply is the
oracle `analysis` (`.error` = the call or the parse threw, which routes to
the `basicJobMatch` fallback).  JS numbers are modelled as exact rationals. -/

structure JobMatchScore where
  jobId : String
  score : ℚ
  matchReasons : List String
  skillsMatch : List String
  missingSkills : List String
  salaryMatch : Bool
  locationMatch : Bool
  recommendations : List String
  deriving DecidableEq, Repr

/-- Parsed JSON reply of the match-analysis prompt. -/
structure MatchAnalysis where
  score : ℚ
  matchReasons : Option (List String)
  skillsMatch : Option (List String)
  missingSkills : Option (List String)
  salaryMatch : Option Bool
  locationMatch : Option Bool
  recommendations : Option (List String)
  deriving DecidableEq, Repr

/-- The hard-coded common-skills list of
`AIJobMatcherService.extractSkillsFromText`. -/
def commonSkills : List String :=
  ["JavaScript", "Python", "React", "Node.js", "TypeScript", "Java", "C++", "HTML", "CSS",
   "AWS", "Docker", "Kubernetes", "Git", "SQL", "PostgreSQL", "MongoDB", "Redis",
   "Django", "Flask", "Express", "Vue.js", "Angular", "GraphQL", "REST API",
   "Machine Learning", "AI", "Data Science", "TensorFlow", "PyTorch", "Pandas"]

def extractSkillsFromText (text : String) : List String :=
  commonSkills.filter (fun skill => jsIncludes (jsToLower text) (jsToLower skill))

/-- The text `basicJobMatch` extracts job skills from:
`job.description + ' ' + (job.requirements || '')` with JS null coercion. -/
def jobMatchText (job : Job) : String :=
  jsStrCoerce job.description ++ " " ++ jsOrEmpty job.requirements

/-- Embeds `AIJobMatcherService.basicJobMatch`, the fallback heuristic. -/
def basicJobMatch (job : Job) (resume : Resume) : JobMatchScore :=
  let jobSkills := extractSkillsFromText (jobMatchText job)
  let resumeSkills := resume.skills.getD []
  let matchingSkills := resumeSkills.filter (fun skill =>
    jobSkills.any (fun jobSkill =>
      jsIncludes (jsToLower skill) (jsToLower jobSkill) ||
      jsIncludes (jsToLower jobSkill) (jsToLower skill)))
  let score : ℚ := min 100 (((matchingSkills.length : ℚ) / (max jobSkills.length 1 : ℚ)) * 100)
  { jobId := job.id
    score := score
    matchReasons := ["Found " ++ toString matchingSkills.length ++ " matching skills"]
    skillsMatch := matchingSkills
    missingSkills := jobSkills.filter (fun skill => !(matchingSkills.contains skill))
    salaryMatch := true
    locationMatch := true
    recommendations := ["Consider highlighting relevant experience", "Update skills section"] }

/-- Embeds `AIJobMatcherService.analyzeJobMatch`: clamp the LLM-provided score into
the 0..100 range, defaulting the other fields; on any error fall back to
`basicJobMatch`. -/
def analyzeJobMatch (analysis : Except String MatchAnalysis) (job : Job) (resume : Resume) :
    JobMatchScore :=
  match analysis with
  | .ok a =>
    { jobId := job.id
      score := max 0 (min 100 a.score)
      matchReasons := a.matchReasons.getD []
      skillsMatch := a.skillsMatch.getD []
      missingSkills := a.missingSkills.getD []
      salaryMatch := a.salaryMatch.getD false
      locationMatch := a.locationMatch.getD true
      recommendations := a.recommendations.getD [] }
  | .error _ => basicJobMatch job resume

/-! `OpenAIService.optimizeResume` (openai.ts): the parsed JSON reply is the
oracle; on success the match score is `Math.max(0, Math.min(100,
result.matchScore || 0))`; on error the function rethrows. -/

structure OptimizeParsed where
  optimizedContent : Option String
  suggestions : Option (List String)
  matchScore : Option ℚ
  deriving DecidableEq, Repr

structure ResumeOptimizationResult where
  optimizedContent : String
  suggestions : List String
  matchScore : ℚ
  deriving DecidableEq, Repr

/-- JS `x || d` for a possibly-missing string: null, undefined and the empty
string all fall back to the default. -/
def jsOrStr (x : Option String) (d : String) : String :=
  match x with
  | some s => if s == "" then d else s
  | none => d

/-- JS `x || 0` for a possibly-missing number (0 maps to 0 either way). -/
def jsNumOrZero (x : Option ℚ) : ℚ := x.getD 0

def optimizeResume (parsed : Except String OptimizeParsed) (resumeContent : String) :
    Except String ResumeOptimizationResult :=
  match parsed with
  | .ok r =>
    .ok { optimizedContent := jsOrStr r.optimizedContent resumeContent
          suggestions := r.suggestions.getD []
          matchScore := max 0 (min 100 (jsNumOrZero r.matchScore)) }
  | .error e => .error ("Failed to optimize resume: " ++ e)

/-- The match score `optimizeResume` reports (0 when the call rethrows and
no score is produced). -/
def optimizeResumeScore (parsed : Except String OptimizeParsed) (resumeContent : String) : ℚ :=
  match optimizeResume parsed resumeContent with
  | .ok r => r.matchScore
  | .error _ => 0

/-! ## C3: fallback skill extraction by fixed regex lists

The patterns used by `LLMService.extractSkillsFallback` and by the catch
branch of `OpenAIService.extractResumeSkills` use only these regex features:
case-insensitive literal alternatives (alternation and an optional dot are
expanded into the alternatives tried at each position, in the engine's
preference order) and the word-boundary anchor.  `content.match(p)` scans
start positions left to right and at each position tries the alternatives in
order; `match[0]` is the matched substring of the content in original case. -/

structure RegexPat where
  alts : List String
  boundary : Bool
  deriving DecidableEq, Repr

/-- JS regex word characters for the boundary anchor (ASCII `\w`). -/
def isWordChar (c : Char) : Bool :=
  ( 'a' ≤ c && c ≤ 'z') || ( 'A' ≤ c && c ≤ 'Z') || ( '0' ≤ c && c ≤ '9') || c == '_'

def wordAt (s : List Char) (i : Nat) : Bool :=
  match s.get? i with
  | some c => isWordChar c
  | none => false

/-- The word-boundary anchor holds between a word and a non-word position
(positions outside the string count as non-word). -/
def boundaryAt (s : List Char) (p : Nat) : Bool :=
  (match p with
   | 0 => false
   | q + 1 => wordAt s q) != wordAt s p

/-- Does alternative `alt` (given in lower case) match case-insensitively at
position `i`, respecting the pattern's word-boundary anchors? -/
def altMatchAt (bd : Bool) (s : List Char) (i : Nat) (alt : List Char) : Bool :=
  (((s.drop i).take alt.length).map Char.toLower == alt) &&
  (!bd || (boundaryAt s i && boundaryAt s (i + alt.length)))

/-- First match of a pattern in a string, as `String.prototype.match`
computes it: leftmost start position, first alternative at that position;
the result is the matched slice of the original content. -/
def regexFirstMatch (p : RegexPat) (str : String) : Option String :=
  let s := str.toList
  (List.range (s.length + 1)).findSome? (fun i =>
    (p.alts.find? (fun alt => altMatchAt p.boundary s i alt.toList)).map
      (fun alt => String.mk ((s.drop i).take alt.toList.length)))

/-- The fixed pattern list of `LLMService.extractSkillsFallback`
(intelligentApplications.ts).  All patterns carry word boundaries; the
alternation and optional-dot patterns are expanded in preference order. -/
def llmSkillPatterns : List RegexPat :=
  [⟨["javascript", "js"], true⟩, ⟨["react"], true⟩, ⟨["node.js", "nodejs"], true⟩,
   ⟨["python"], true⟩, ⟨["java"], true⟩, ⟨["c++"], true⟩, ⟨["html"], true⟩,
   ⟨["css"], true⟩, ⟨["typescript"], true⟩, ⟨["aws"], true⟩, ⟨["docker"], true⟩,
   ⟨["kubernetes"], true⟩, ⟨["sql"], true⟩, ⟨["mongodb"], true⟩,
   ⟨["postgresql"], true⟩, ⟨["git"], true⟩, ⟨["linux"], true⟩,
   ⟨["angular"], true⟩, ⟨["vue"], true⟩]

/-- The fixed pattern list of the catch branch of
`OpenAIService.extractResumeSkills` (openai.ts); no word boundaries here. -/
def openaiSkillPatterns : List RegexPat :=
  [⟨["python"], false⟩, ⟨["javascript"], false⟩, ⟨["react"], false⟩,
   ⟨["node.js", "nodejs"], false⟩, ⟨["java"], false⟩, ⟨["c++"], false⟩,
   ⟨["aws"], false⟩, ⟨["docker"], false⟩, ⟨["kubernetes"], false⟩,
   ⟨["sql"], false⟩, ⟨["mongodb"], false⟩, ⟨["postgresql"], false⟩]

/-- The skill list both fallbacks return when no pattern matches. -/
def defaultFallbackSkills : List String := ["Programming", "Software Development"]

/-- Shared loop shape of both fallbacks: push each pattern's first match (in
pattern-list order), then substitute the default list when nothing matched. -/
def collectPatternMatches (pats : List RegexPat) (content : String) : List String :=
  pats.foldl (fun acc p =>
    match regexFirstMatch p content with
    | some m => acc ++ [m]
    | none => acc) []

/-- Embeds `LLMService.extractSkillsFallback`. -/
def extractSkillsFallback (content : String) : List String :=
  let skills := collectPatternMatches llmSkillPatterns content
  if skills.length > 0 then skills else defaultFallbackSkills

/-- Catch branch of `OpenAIService.extractResumeSkills`. -/
def openaiExtractSkillsFallback (content : String) : List String :=
  let fallbackSkills := collectPatternMatches openaiSkillPatterns content
  if fallbackSkills.length > 0 then fallbackSkills else defaultFallbackSkills

/-! ## C4 / C7: JobScraperService (jobScraper.ts)

Each job board's HTML parsing is abstracted: a fetch either throws
(`netThrow`), returns a non-ok HTTP status (`httpError`), or returns ok and
cheerio yields a list of raw cards.  The per-keyword loops, limits, delays
and error handling are embedded faithfully; the recorded event trace
captures each issued fetch (by its keyword) and each awaited delay. -/

structure ScrapedJob where
  title : String
  company : String
  location : Option String
  description : String
  requirements : Option String
  salary : Option String
  url : String
  externalId : String
  jobBoard : String
  deriving DecidableEq, Repr

inductive FetchOutcome (α : Type) where
  | ok (cards : List α)
  | httpError (status : Nat)
  | netThrow
  deriving DecidableEq, Repr

inductive ScrapeEvent where
  | fetched (keyword : String)
  | delayed (ms : Nat)
  deriving DecidableEq, Repr

/-- A parsed Indeed result card: the selector texts and the resolved
`data-jk` attribute (absent or empty attribute is falsy in JS). -/
structure IndeedCard where
  title : String
  company : String
  location : String
  summary : String
  jobKey : Option String
  deriving DecidableEq, Repr

def indeedCardJob (nowMs idx : Nat) (card : IndeedCard) : ScrapedJob :=
  let jobKey := jsOrStr card.jobKey ("indeed-" ++ toString nowMs ++ "-" ++ toString idx)
  { title := card.title
    company := card.company
    location := if card.location == "" then none else some card.location
    description := card.summary
    requirements := none
    salary := none
    url := "https://www.indeed.com/job/" ++ jobKey
    externalId := jobKey
    jobBoard := "Indeed" }

/-- The cheerio `.each` push loop: stop as soon as `limit` jobs are
collected, keep only cards with a non-empty title and company. -/
def indeedPush (nowMs limit : Nat) (jobs : List ScrapedJob) (cards : List IndeedCard) :
    List ScrapedJob :=
  cards.enum.foldl (fun js p =>
    if limit ≤ js.length then js
    else if p.2.title != "" && p.2.company != "" then js ++ [indeedCardJob nowMs p.1 p.2]
    else js) jobs

/-- Keyword loop of `scrapeIndeedJobs`: one fetch per keyword; a non-ok
response skips to the next keyword (`continue`, also skipping the delay); a
thrown fetch hits the catch around the whole loop, which returns the jobs
collected so far; an ok response is parsed and followed by a 2000 ms delay. -/
def scrapeIndeedGo (world : String → FetchOutcome IndeedCard) (nowMs limit : Nat) :
    List String → List ScrapedJob → List ScrapeEvent → List ScrapedJob × List ScrapeEvent
  | [], jobs, evs => (jobs, evs)
  | k :: rest, jobs, evs =>
    match world k with
    | .netThrow => (jobs, evs ++ [.fetched k])
    | .httpError _ => scrapeIndeedGo world nowMs limit rest jobs (evs ++ [.fetched k])
    | .ok cards =>
      scrapeIndeedGo world nowMs limit rest (indeedPush nowMs limit jobs cards)
        (evs ++ [.fetched k, .delayed 2000])

def scrapeIndeedJobs (world : String → FetchOutcome IndeedCard) (nowMs : Nat)
    (keywords : List String) (limit : Nat) : List ScrapedJob × List ScrapeEvent :=
  scrapeIndeedGo world nowMs limit keywords [] []

/-- A parsed LinkedIn `.base-card`. -/
structure LinkedInCard where
  title : String
  company : String
  location : String
  summary : String
  href : Option String
  deriving DecidableEq, Repr

def linkedInSearchUrl (keyword : String) : String :=
  "https://www.linkedin.com/jobs/search?keywords=" ++ keyword

def linkedInCardJob (nowMs idx : Nat) (keyword : String) (card : LinkedInCard) : ScrapedJob :=
  let jobUrl := jsOrStr card.href (linkedInSearchUrl keyword)
  let jobId := jsOrStr ((jobUrl.splitOn "/").getLast?)
    ("linkedin-" ++ toString nowMs ++ "-" ++ toString idx)
  { title := card.title
    company := card.company
    location := if card.location == "" then none else some card.location
    description := if card.summary == "" then keyword ++ " position at " ++ card.company
      else card.summary
    requirements := none
    salary := none
    url := jobUrl
    externalId := jobId
    jobBoard := "LinkedIn" }

def linkedInPush (nowMs limit : Nat) (keyword : String) (jobs : List ScrapedJob)
    (cards : List LinkedInCard) : List ScrapedJob :=
  cards.enum.foldl (fun js p =>
    if limit ≤ js.length then js
    else if p.2.title != "" && p.2.company != "" then
      js ++ [linkedInCardJob nowMs p.1 keyword p.2]
    else js) jobs

/-- Keyword loop of `scrapeLinkedInJobs`: the inner try/catch makes a thrown
fetch continue with the next keyword (the delay inside the try is skipped);
a non-ok response continues likewise; an ok response is parsed and followed
by a 3000 ms delay. -/
def scrapeLinkedInGo (world : String → FetchOutcome LinkedInCard) (nowMs limit : Nat) :
    List String → List ScrapedJob → List ScrapeEvent → List ScrapedJob × List ScrapeEvent
  | [], jobs, evs => (jobs, evs)
  | k :: rest, jobs, evs =>
    match world k with
    | .netThrow => scrapeLinkedInGo world nowMs limit rest jobs (evs ++ [.fetched k])
    | .httpError _ => scrapeLinkedInGo world nowMs limit rest jobs (evs ++ [.fetched k])
    | .ok cards =>
      scrapeLinkedInGo world nowMs limit rest (linkedInPush nowMs limit k jobs cards)
        (evs ++ [.fetched k, .delayed 3000])

def scrapeLinkedInJobs (world : String → FetchOutcome LinkedInCard) (nowMs : Nat)
    (keywords : List String) (limit : Nat) : List ScrapedJob × List ScrapeEvent :=
  scrapeLinkedInGo world nowMs limit keywords [] []

/-! `scrapeAllJobBoards` launches the four board scrapes with
`Promise.allSettled` — all four promises are created before any of them is
awaited, so no board waits for the previous board to finish.  The
orchestration combinator used is recorded structurally, and the pure
combination of the settled results is embedded below. -/

inductive JobBoardTask where
  | indeed
  | remoteOK
  | linkedIn
  | stackOverflow
  deriving DecidableEq, Repr

/-- How a list of scraper calls is composed: awaited one after another
(`seqPlan`) or started together and awaited jointly via `Promise.allSettled`
(`allSettledPlan`). -/
inductive ExecPlan where
  | seqPlan (boards : List JobBoardTask)
  | allSettledPlan (boards : List JobBoardTask)
  deriving DecidableEq, Repr

def ExecPlan.isSequential : ExecPlan → Bool
  | .seqPlan _ => true
  | .allSettledPlan _ => false

/-- The composition `scrapeAllJobBoards` actually uses. -/
def scrapeAllJobBoardsPlan : ExecPlan :=
  .allSettledPlan [.indeed, .remoteOK, .linkedIn, .stackOverflow]

/-- Value of a settled promise as consumed by `scrapeAllJobBoards`: the
fulfilled list, or nothing for a rejected scrape. -/
def settledValue : Except String (List ScrapedJob) → List ScrapedJob
  | .ok jobs => jobs
  | .error _ => []

def sameTitleCompany (j k : ScrapedJob) : Bool :=
  jsToLower j.title == jsToLower k.title && jsToLower j.company == jsToLower k.company

/-- The duplicate filter `index === self.findIndex(...)`: keep a job only at
the first index holding its case-insensitive (title, company) key. -/
def dedupJobs (jobs : List ScrapedJob) : List ScrapedJob :=
  (jobs.enum.filter (fun p => jobs.findIdx? (fun j2 => sameTitleCompany j2 p.2) == some p.1)).map
    (fun p => p.2)

/-- Pure tail of `scrapeAllJobBoards`: concatenate the fulfilled results in
the fixed order Indeed, RemoteOK, LinkedIn, Stack Overflow, deduplicate,
truncate to `limit`. -/
def scrapeAllJobBoardsCombine (indeedR remoteOkR linkedInR stackR : Except String (List ScrapedJob))
    (limit : Nat) : List ScrapedJob :=
  let allJobs := settledValue indeedR ++ settledValue remoteOkR ++ settledValue linkedInR ++
    settledValue stackR
  (dedupJobs allJobs).take limit

/-! ## C5: ScheduledJobSearchService (scheduledJobSearch.ts)

The service is a two-field state machine; `setInterval`/`clearInterval`
effects are recorded as events, and an interval table interprets them. -/

structure SchedulerState where
  intervalId : Option Nat
  isRunning : Bool
  deriving DecidableEq, Repr

inductive SchedEvent where
  | searchRun
  | intervalSet (id : Nat) (periodMs : Nat)
  | intervalCleared (id : Nat)
  deriving DecidableEq, Repr

/-- Field initializers of the class: `intervalId = null`, `isRunning =
false`.  A fresh process (a restart) starts from exactly this state. -/
def initialSchedulerState : SchedulerState := { intervalId := none, isRunning := false }

/-- Embeds `startAutomaticJobSearch`: a no-op when already running; otherwise run
the search once immediately and register a 6-hour interval. -/
def startAutomaticJobSearch (s : SchedulerState) (newTimerId : Nat) :
    SchedulerState × List SchedEvent :=
  if s.isRunning then (s, [])
  else ({ intervalId := some newTimerId, isRunning := true },
    [.searchRun, .intervalSet newTimerId (6 * 60 * 60 * 1000)])

/-- Embeds `stopAutomaticJobSearch`: clear the interval when one is registered and
reset both fields. -/
def stopAutomaticJobSearch (s : SchedulerState) : SchedulerState × List SchedEvent :=
  match s.intervalId with
  | some id => ({ intervalId := none, isRunning := false }, [.intervalCleared id])
  | none => ({ intervalId := none, isRunning := false }, [])

/-- Interval table semantics of the recorded events: `setInterval` adds a
periodic timer, `clearInterval` removes it; timers drive all future
scheduled runs. -/
def applySchedEvent (timers : List (Nat × Nat)) : SchedEvent → List (Nat × Nat)
  | .searchRun => timers
  | .intervalSet id period => timers ++ [(id, period)]
  | .intervalCleared id => timers.filter (fun t => t.1 ≠ id)

def timersAfter (evs : List SchedEvent) (timers : List (Nat × Nat)) : List (Nat × Nat) :=
  evs.foldl applySchedEvent timers

/-! ## C6 / C8: MemStorage (server/storage.ts)

A JS `Map` keyed by strings is an association list in insertion order:
`set` on an existing key replaces the entry in place, `set` on a new key
appends; `values()` iterates in insertion order.  `randomUUID()` and
`new Date()` are environment inputs, passed explicitly to each operation. -/

abbrev StrMap (α : Type) : Type := List (String × α)

def mapGet {α : Type} (m : StrMap α) (k : String) : Option α :=
  (List.find? (fun p => p.1 == k) m).map (fun p => p.2)

/-- Embeds `Map.prototype.set`: replace the entry in place when the key is present,
append a new entry otherwise (JS `Map` keys are unique and iteration is in
insertion order). -/
def mapSet {α : Type} : StrMap α → String → α → StrMap α
  | [], k, v => [(k, v)]
  | p :: t, k, v => if p.1 == k then (k, v) :: t else p :: mapSet t k v

def mapValues {α : Type} (m : StrMap α) : List α := List.map (fun p => p.2) m

structure SystemConfig where
  id : String
  userId : String
  openaiApiKey : Option String
  automationEnabled : Bool
  dailyApplicationLimit : Int
  scrapeInterval : Int
  deriving DecidableEq, Repr

structure MemStore where
  users : StrMap User
  jobSearchConfigs : StrMap JobSearchConfig
  resumes : StrMap Resume
  jobs : StrMap Job
  jobApplications : StrMap JobApplication
  coverLetters : StrMap CoverLetter
  automationLogs : StrMap AutomationLog
  systemConfigs : StrMap SystemConfig

/-- The store the `MemStorage` constructor builds: eight empty maps. -/
def emptyStore : MemStore :=
  { users := [], jobSearchConfigs := [], resumes := [], jobs := [],
    jobApplications := [], coverLetters := [], automationLogs := [], systemConfigs := [] }

/-! Getters. -/

def getUser (s : MemStore) (id : String) : Option User := mapGet s.users id

def getJob (s : MemStore) (id : String) : Option Job := mapGet s.jobs id

def getResume (s : MemStore) (id : String) : Option Resume := mapGet s.resumes id

def getApplication (s : MemStore) (id : String) : Option JobApplication :=
  mapGet s.jobApplications id

def getResumes (s : MemStore) (userId : String) : List Resume :=
  (mapValues s.resumes).filter (fun r => r.userId == userId)

/-- Embeds `getApplications`: filter by user, then sort by `appliedAt` descending
(JS `sort` with the comparator `b.appliedAt - a.appliedAt`). -/
def getApplications (s : MemStore) (userId : String) : List JobApplication :=
  ((mapValues s.jobApplications).filter (fun a => a.userId == userId)).mergeSort
    (fun a b => Nat.ble b.appliedAt a.appliedAt)

/-! Create operations: `const id = randomUUID()` makes the generated id an
input; `new Date()` makes the clock an input. -/

def createUser (s : MemStore) (id : String) (ins : InsertUser) : User × MemStore :=
  let user : User := { id := id, username := ins.username, password := ins.password }
  (user, { s with users := mapSet s.users id user })

def createJob (s : MemStore) (id : String) (now : Nat) (ins : InsertJob) : Job × MemStore :=
  let newJob : Job :=
    { id := id
      title := ins.title
      company := ins.company
      location := ins.location
      description := ins.description
      requirements := ins.requirements
      salary := ins.salary
      jobBoard := ins.jobBoard
      externalId := ins.externalId
      url := ins.url
      isActive := ins.isActive.getD true
      discoveredAt := now }
  (newJob, { s with jobs := mapSet s.jobs id newJob })

def createResume (s : MemStore) (id : String) (now : Nat) (ins : InsertResume) :
    Resume × MemStore :=
  let newResume : Resume :=
    { id := id
      userId := ins.userId
      name := ins.name
      originalFileName := ins.originalFileName
      filePath := ins.filePath
      content := ins.content
      skills := ins.skills
      experience := ins.experience
      isDefault := ins.isDefault
      createdAt := now }
  (newResume, { s with resumes := mapSet s.resumes id newResume })

def createApplication (s : MemStore) (id : String) (now : Nat) (ins : InsertJobApplication) :
    JobApplication × MemStore :=
  let newApplication : JobApplication :=
    { id := id
      userId := ins.userId
      jobId := ins.jobId
      resumeId := ins.resumeId
      coverLetter := ins.coverLetter
      status := ins.status.getD "pending"
      appliedAt := now
      lastUpdated := now
      notes := ins.notes }
  (newApplication, { s with jobApplications := mapSet s.jobApplications id newApplication })

def createCoverLetter (s : MemStore) (id : String) (now : Nat) (ins : InsertCoverLetter) :
    CoverLetter × MemStore :=
  let newCoverLetter : CoverLetter :=
    { id := id
      userId := ins.userId
      jobId := ins.jobId
      content := ins.content
      isGenerated := ins.isGenerated.getD true
      generatedAt := now }
  (newCoverLetter, { s with coverLetters := mapSet s.coverLetters id newCoverLetter })

def createAutomationLog (s : MemStore) (id : String) (now : Nat) (ins : InsertAutomationLog) :
    AutomationLog × MemStore :=
  let newLog : AutomationLog :=
    { id := id
      userId := ins.userId
      action := ins.action
      details := ins.details.getD "\x7b\x7d"
      status := ins.status
      timestamp := now }
  (newLog, { s with automationLogs := mapSet s.automationLogs id newLog })

/-! Update operations: `Partial<T>` is a record of optional overrides;
`{...existing, ...patch}` takes the patch field whenever it is present. -/

structure JobPatch where
  id : Option String := none
  title : Option String := none
  company : Option String := none
  location : Option (Option String) := none
  description : Option (Option String) := none
  requirements : Option (Option String) := none
  salary : Option (Option String) := none
  jobBoard : Option String := none
  externalId : Option String := none
  url : Option String := none
  isActive : Option Bool := none
  discoveredAt : Option Nat := none
  deriving DecidableEq, Repr

def mergeJob (existing : Job) (p : JobPatch) : Job :=
  { id := p.id.getD existing.id
    title := p.title.getD existing.title
    company := p.company.getD existing.company
    location := p.location.getD existing.location
    description := p.description.getD existing.description
    requirements := p.requirements.getD existing.requirements
    salary := p.salary.getD existing.salary
    jobBoard := p.jobBoard.getD existing.jobBoard
    externalId := p.externalId.getD existing.externalId
    url := p.url.getD existing.url
    isActive := p.isActive.getD existing.isActive
    discoveredAt := p.discoveredAt.getD existing.discoveredAt }

def updateJob (s : MemStore) (id : String) (p : JobPatch) : Option Job × MemStore :=
  match mapGet s.jobs id with
  | none => (none, s)
  | some existing =>
    let updated := mergeJob existing p
    (some updated, { s with jobs := mapSet s.jobs id updated })

structure ResumePatch where
  id : Option String := none
  userId : Option String := none
  name : Option String := none
  originalFileName : Option String := none
  filePath : Option String := none
  content : Option String := none
  skills : Option (Option (List String)) := none
  experience : Option (Option String) := none
  isDefault : Option (Option Bool) := none
  createdAt : Option Nat := none
  deriving DecidableEq, Repr

def mergeResume (existing : Resume) (p : ResumePatch) : Resume :=
  { id := p.id.getD existing.id
    userId := p.userId.getD existing.userId
    name := p.name.getD existing.name
    originalFileName := p.originalFileName.getD existing.originalFileName
    filePath := p.filePath.getD existing.filePath
    content := p.content.getD existing.content
    skills := p.skills.getD existing.skills
    experience := p.experience.getD existing.experience
    isDefault := p.isDefault.getD existing.isDefault
    createdAt := p.createdAt.getD existing.createdAt }

def updateResume (s : MemStore) (id : String) (p : ResumePatch) : Option Resume × MemStore :=
  match mapGet s.resumes id with
  | none => (none, s)
  | some existing =>
    let updated := mergeResume existing p
    (some updated, { s with resumes := mapSet s.resumes id updated })

structure ApplicationPatch where
  id : Option String := none
  userId : Option String := none
  jobId : Option String := none
  resumeId : Option String := none
  coverLetter : Option (Option String) := none
  status : Option String := none
  appliedAt : Option Nat := none
  lastUpdated : Option Nat := none
  notes : Option (Option String) := none
  deriving DecidableEq, Repr

/-- In `{...existing, ...application, lastUpdated: new Date()}` the spread is
merged first, then `lastUpdated` is overwritten with the clock. -/
def mergeApplication (existing : JobApplication) (p : ApplicationPatch) (now : Nat) :
    JobApplication :=
  { id := p.id.getD existing.id
    userId := p.userId.getD existing.userId
    jobId := p.jobId.getD existing.jobId
    resumeId := p.resumeId.getD existing.resumeId
    coverLetter := p.coverLetter.getD existing.coverLetter
    status := p.status.getD existing.status
    appliedAt := p.appliedAt.getD existing.appliedAt
    lastUpdated := now
    notes := p.notes.getD existing.notes }

def updateApplication (s : MemStore) (id : String) (p : ApplicationPatch) (now : Nat) :
    Option JobApplication × MemStore :=
  match mapGet s.jobApplications id with
  | none => (none, s)
  | some existing =>
    let updated := mergeApplication existing p now
    (some updated, { s with jobApplications := mapSet s.jobApplications id updated })

structure JobSearchConfigPatch where
  id : Option String := none
  userId : Option String := none
  keywords : Option (List String) := none
  locations : Option (List String) := none
  jobBoards : Option (List String) := none
  salaryMin : Option (Option Int) := none
  salaryMax : Option (Option Int) := none
  experienceLevel : Option (Option String) := none
  isActive : Option Bool := none
  createdAt : Option Nat := none
  deriving DecidableEq, Repr

def mergeJobSearchConfig (existing : JobSearchConfig) (p : JobSearchConfigPatch) :
    JobSearchConfig :=
  { id := p.id.getD existing.id
    userId := p.userId.getD existing.userId
    keywords := p.keywords.getD existing.keywords
    locations := p.locations.getD existing.locations
    jobBoards := p.jobBoards.getD existing.jobBoards
    salaryMin := p.salaryMin.getD existing.salaryMin
    salaryMax := p.salaryMax.getD existing.salaryMax
    experienceLevel := p.experienceLevel.getD existing.experienceLevel
    isActive := p.isActive.getD existing.isActive
    createdAt := p.createdAt.getD existing.createdAt }

def updateJobSearchConfig (s : MemStore) (id : String) (p : JobSearchConfigPatch) :
    Option JobSearchConfig × MemStore :=
  match mapGet s.jobSearchConfigs id with
  | none => (none, s)
  | some existing =>
    let updated := mergeJobSearchConfig existing p
    (some updated, { s with jobSearchConfigs := mapSet s.jobSearchConfigs id updated })

/-! ## C10: IntelligentApplicationService (intelligentApplications.ts)

The per-job LLM interactions are the oracle `AttemptEnv`: the parsed match
analysis (consumed by `shouldAutoApply` through `analyzeJobMatch`), the
cover-letter text (`generateOptimizedCoverLetter` catches every error and
returns a template, so it always yields some text), and the browser
automation outcome.  Generated UUIDs come from a counter-driven generator
`g`; the `jsonb` log payload is abstracted to a summary string.  With
`MemStorage` none of the awaited storage operations throws, so the outer
catch of `attemptAutoApplication` is unreachable and is not modelled. -/

structure AttemptEnv where
  analysis : Except String MatchAnalysis
  coverText : String
  browser : Except String Bool

structure ShouldApplyResult where
  shouldApply : Bool
  reason : String
  score : ℚ
  deriving DecidableEq, Repr

/-- Embeds `IntelligentApplicationService.shouldAutoApply`: pick the default (or
first) resume, score the match, and approve at score ≥ 75 with ≥ 3 matching
skills and an acceptable salary. -/
def shouldAutoApply (s : MemStore) (userId : String) (job : Job)
    (analysis : Except String MatchAnalysis) : ShouldApplyResult :=
  match getResumes s userId with
  | [] => { shouldApply := false, reason := "No resume found", score := 0 }
  | r0 :: rest =>
    let defaultResume := (List.find? (fun r => r.isDefault == some true) (r0 :: rest)).getD r0
    let matchScore := analyzeJobMatch analysis job defaultResume
    if 75 ≤ matchScore.score ∧ 3 ≤ matchScore.skillsMatch.length ∧ matchScore.salaryMatch = true
    then
      { shouldApply := true
        reason := "High match score (" ++ toString matchScore.score ++ "%) with " ++
          toString matchScore.skillsMatch.length ++ " matching skills"
        score := matchScore.score }
    else
      { shouldApply := false
        reason := "Score too low (" ++ toString matchScore.score ++
          "%) or missing key requirements"
        score := matchScore.score }

structure AutoApplicationResult where
  success : Bool
  jobId : String
  applicationId : Option String
  coverLetterId : Option String
  error : Option String
  matchScore : ℚ
  deriving DecidableEq, Repr

/-- A world is the storage plus the UUID counter feeding the generator. -/
structure World where
  store : MemStore
  uuidCtr : Nat

/-- Embeds `IntelligentApplicationService.attemptAutoApplication`. -/
def attemptAutoApplication (g : Nat → String) (now : Nat) (env : AttemptEnv) (userId : String)
    (job : Job) (w : World) : AutoApplicationResult × World :=
  let evaluation := shouldAutoApply w.store userId job env.analysis
  if evaluation.shouldApply = false then
    ({ success := false, jobId := job.id, applicationId := none, coverLetterId := none,
       error := some evaluation.reason, matchScore := evaluation.score }, w)
  else
    match getResumes w.store userId with
    | [] =>
      ({ success := false, jobId := job.id, applicationId := none, coverLetterId := none,
         error := some "No resume found", matchScore := evaluation.score }, w)
    | r0 :: rest =>
      let defaultResume := (List.find? (fun r => r.isDefault == some true) (r0 :: rest)).getD r0
      let coverLetterContent := env.coverText
      let store1 := (createCoverLetter w.store (g w.uuidCtr) now
        { userId := userId, jobId := job.id, content := coverLetterContent,
          isGenerated := some true }).2
      let appAndStore := createApplication store1 (g (w.uuidCtr + 1)) now
        { userId := userId, jobId := job.id, resumeId := defaultResume.id,
          coverLetter := some coverLetterContent, status := some "pending",
          notes := some ("Auto-applied via AI system. Match score: " ++
            toString evaluation.score ++ "%") }
      let application := appAndStore.1
      let store2 := appAndStore.2
      let store3 :=
        if job.url != "" && jsIncludes job.url "apply" then
          match env.browser with
          | .ok true =>
            (updateApplication store2 application.id
              { status := some "submitted",
                notes := some (some (jsStrCoerce application.notes ++
                  " | Browser automation successful")) } now).2
          | _ => store2
        else store2
      let store4 := (createAutomationLog store3 (g (w.uuidCtr + 2)) now
        { userId := userId, action := "auto_application",
          details := some (job.title ++ " at " ++ job.company), status := "success" }).2
      ({ success := true, jobId := job.id, applicationId := some application.id,
         coverLetterId := none, error := none, matchScore := evaluation.score },
       { store := store4, uuidCtr := w.uuidCtr + 3 })

def maxAutoApplications : Nat := 5

/-- Batch loop of `processJobBatchForAutoApplications`: stop once 5 attempts
have succeeded, skip jobs the user already applied to, count only successes
toward the limit. -/
def processBatchGo (g : Nat → String) (now : Nat) (env : Nat → AttemptEnv) (userId : String) :
    List Job → Nat → Nat → List AutoApplicationResult → World →
    List AutoApplicationResult × World
  | [], _, _, results, w => (results, w)
  | job :: rest, idx, attempted, results, w =>
    if maxAutoApplications ≤ attempted then (results, w)
    else
      let existingApplications := getApplications w.store userId
      if existingApplications.any (fun app => app.jobId == job.id) then
        processBatchGo g now env userId rest (idx + 1) attempted results w
      else
        let resultAndWorld := attemptAutoApplication g now (env idx) userId job w
        if resultAndWorld.1.success then
          processBatchGo g now env userId rest (idx + 1) (attempted + 1)
            (results ++ [resultAndWorld.1]) resultAndWorld.2
        else
          processBatchGo g now env userId rest (idx + 1) attempted
            (results ++ [resultAndWorld.1]) resultAndWorld.2

def processJobBatchForAutoApplications (g : Nat → String) (now : Nat) (env : Nat → AttemptEnv)
    (userId : String) (jobs : List Job) (w : World) : List AutoApplicationResult × World :=
  processBatchGo g now env userId jobs 0 0 [] w

/-- Number of applications the user holds for a given job. -/
def appCount (s : MemStore) (userId jobId : String) : Nat :=
  ((mapValues s.jobApplications).filter (fun a => a.userId == userId && a.jobId == jobId)).length

/-! ## Lemmas about the JS `Map` model -/

theorem mapGet_nil {α : Type} (k : String) : mapGet ([] : StrMap α) k = none := rfl

theorem mapGet_cons {α : Type} (hd : String × α) (tl : StrMap α) (k : String) :
    mapGet (hd :: tl) k = if hd.1 = k then some hd.2 else mapGet tl k := by
  by_cases h : hd.1 = k
  · simp [mapGet, List.find?_cons, h]
  · simp [mapGet, List.find?_cons, h]

theorem mapSet_cons {α : Type} (hd : String × α) (tl : StrMap α) (k : String) (v : α) :
    mapSet (hd :: tl) k v = if hd.1 = k then (k, v) :: tl else hd :: mapSet tl k v := by
  by_cases h : hd.1 = k
  · simp [mapSet, h]
  · simp [mapSet, h]

theorem mapGet_mapSet_self {α : Type} (m : StrMap α) (k : String) (v : α) :
    mapGet (mapSet m k v) k = some v := by
  induction m with
  | nil => simp [mapGet, mapSet, List.find?_cons]
  | cons hd tl ih =>
    rw [mapSet_cons]
    by_cases h : hd.1 = k
    · simp [mapGet_cons, h]
    · rw [if_neg h, mapGet_cons, if_neg h]
      exact ih

theorem mapGet_mapSet_ne {α : Type} (m : StrMap α) (k k' : String) (v : α) (h : k' ≠ k) :
    mapGet (mapSet m k v) k' = mapGet m k' := by
  induction m with
  | nil =>
    rw [show mapSet ([] : StrMap α) k v = [(k, v)] from rfl, mapGet_cons]
    rw [if_neg (fun he => h he.symm : ¬(k, v).1 = k')]
  | cons hd tl ih =>
    rw [mapSet_cons]
    by_cases hh : hd.1 = k
    · rw [if_pos hh, mapGet_cons, mapGet_cons]
      have : ¬(k = k') := fun he => h he.symm
      rw [if_neg this, if_neg (by rw [hh]; exact this)]
    · rw [if_neg hh, mapGet_cons, mapGet_cons]
      by_cases hk' : hd.1 = k'
      · rw [if_pos hk', if_pos hk']
      · rw [if_neg hk', if_neg hk']
        exact ih

theorem mapSet_fresh {α : Type} (m : StrMap α) (k : String) (v : α)
    (h : mapGet m k = none) : mapSet m k v = m ++ [(k, v)] := by
  induction m with
  | nil => rfl
  | cons hd tl ih =>
    rw [mapGet_cons] at h
    by_cases hh : hd.1 = k
    · rw [if_pos hh] at h
      exact absurd h (by simp)
    · rw [if_neg hh] at h
      rw [mapSet_cons, if_neg hh, List.cons_append]
      rw [ih h]

/-- Splitting view of an in-place replacement: when the key is present, the
map decomposes around its first occurrence, and `mapSet` replaces exactly
that value. -/
theorem mapSet_split {α : Type} (m : StrMap α) (k : String) (v e : α)
    (h : mapGet m k = some e) :
    ∃ l1 l2, m = l1 ++ (k, e) :: l2 ∧ mapSet m k v = l1 ++ (k, v) :: l2 := by
  induction m with
  | nil => simp [mapGet] at h
  | cons hd tl ih =>
    rw [mapGet_cons] at h
    by_cases hh : hd.1 = k
    · rw [if_pos hh] at h
      refine ⟨[], tl, ?_, ?_⟩
      · have : hd = (k, e) := by
          cases hd with
          | mk a b =>
            simp only at hh
            simp only [Option.some.injEq] at h
            rw [hh, h]
        simp [this]
      · rw [mapSet_cons, if_pos hh]
        simp
    · rw [if_neg hh] at h
      rcases ih h with ⟨l1, l2, h1, h2⟩
      exact ⟨hd :: l1, l2, by simp [h1], by rw [mapSet_cons, if_neg hh]; simp [h2]⟩

/-! ## Helper lemmas for the claims -/

theorem collectPatternMatches_eq_filterMap (pats : List RegexPat) (content : String) :
    collectPatternMatches pats content =
      pats.filterMap (fun p => regexFirstMatch p content) := by
  unfold collectPatternMatches
  suffices h : ∀ (ps : List RegexPat) (acc : List String),
      ps.foldl (fun acc p => match regexFirstMatch p content with
        | some m => acc ++ [m]
        | none => acc) acc = acc ++ ps.filterMap (fun p => regexFirstMatch p content) by
    simpa using h pats []
  intro ps
  induction ps with
  | nil => intro acc; simp
  | cons p rest ih =>
    intro acc
    cases hm : regexFirstMatch p content with
    | none => simp [List.foldl_cons, hm, List.filterMap_cons, ih]
    | some m => simp [List.foldl_cons, hm, List.filterMap_cons, ih]

theorem dedupJobs_pairwise (jobs : List ScrapedJob) :
    (dedupJobs jobs).Pairwise (fun a b => sameTitleCompany a b = false) := by
  unfold dedupJobs
  rw [List.pairwise_map]
  have henum : jobs.enum.Pairwise (fun p q : Nat × ScrapedJob => p.1 ≠ q.1) := by
    have hn : (jobs.enum.map Prod.fst).Nodup := by
      rw [List.enum_map_fst]
      exact List.nodup_range _
    exact (List.pairwise_map (R := (· ≠ ·))).mp hn
  have hfilter := List.Pairwise.sublist
    (@List.filter_sublist (Nat × ScrapedJob)
      (fun p => jobs.findIdx? (fun j2 => sameTitleCompany j2 p.2) == some p.1) jobs.enum) henum
  refine List.Pairwise.imp_of_mem ?_ hfilter
  intro p q hp hq hne
  have hpt := (List.mem_filter.mp hp).2
  have hqt := (List.mem_filter.mp hq).2
  simp only [beq_iff_eq] at hpt hqt
  cases hcb : sameTitleCompany p.2 q.2 with
  | false => rfl
  | true =>
    exfalso
    have hkey : jsToLower p.2.title = jsToLower q.2.title ∧
        jsToLower p.2.company = jsToLower q.2.company := by
      unfold sameTitleCompany at hcb
      rw [Bool.and_eq_true, beq_iff_eq, beq_iff_eq] at hcb
      exact hcb
    have hfun : (fun j2 => sameTitleCompany j2 p.2) = (fun j2 => sameTitleCompany j2 q.2) := by
      funext j2
      unfold sameTitleCompany
      rw [hkey.1, hkey.2]
    rw [hfun, hqt] at hpt
    exact hne (Option.some.inj hpt).symm

/-! ## Claim theorems -/

/-- Claim C1: `LLMService.getAvailableProvider` selects openai exactly when
an OpenAI key is set and the probe completion succeeds, otherwise ollama
exactly when the local tags endpoint responds ok, otherwise huggingface; and
when generation with the selected provider throws, `generateText` returns
the static fallback text computed by `getFallbackResponse` from the prompt
instead of propagating the error. -/
theorem c1_llm_provider_selection_and_fallback (env : LLMEnv) (prompt msg : String)
    (h : env.generate (getAvailableProvider env) = Except.error msg) :
    (getAvailableProvider env = Provider.openai ↔
      (envKeyTruthy env = true ∧ exceptOk env.openaiProbe = true)) ∧
    (getAvailableProvider env = Provider.ollama ↔
      (¬(envKeyTruthy env = true ∧ exceptOk env.openaiProbe = true) ∧
        env.ollamaTags = Except.ok true)) ∧
    (getAvailableProvider env = Provider.huggingface ↔
      (¬(envKeyTruthy env = true ∧ exceptOk env.openaiProbe = true) ∧
        ¬(env.ollamaTags = Except.ok true))) ∧
    generateText env prompt = getFallbackResponse prompt := by
  have hgen : generateText env prompt = getFallbackResponse prompt := by
    unfold generateText
    rw [h]
  refine ⟨?_, ?_, ?_, hgen⟩ <;>
    · unfold getAvailableProvider exceptOk
      cases hb : envKeyTruthy env <;> cases hp : env.openaiProbe <;>
        rcases ht : env.ollamaTags with e | b <;>
        first
          | (cases b <;> simp_all)
          | simp_all

/-- Claim C5: `startAutomaticJobSearch` runs the search once immediately and
registers an interval of exactly 21600000 ms (6 hours); starting while
already running changes nothing; `stopAutomaticJobSearch` resets the state
and clears the interval so the timer table is left empty; a fresh instance
(a restart) carries no schedule state. -/
theorem c5_scheduled_search_every_six_hours (s : SchedulerState) (newTimerId : Nat) :
    (s.isRunning = false →
      startAutomaticJobSearch s newTimerId =
        ({ intervalId := some newTimerId, isRunning := true },
          [SchedEvent.searchRun, SchedEvent.intervalSet newTimerId 21600000])) ∧
    (s.isRunning = true → startAutomaticJobSearch s newTimerId = (s, [])) ∧
    (stopAutomaticJobSearch s).1 = initialSchedulerState ∧
    (∀ id, s.intervalId = some id →
      timersAfter (stopAutomaticJobSearch s).2 [(id, 21600000)] = []) ∧
    (s.isRunning = false →
      timersAfter ((startAutomaticJobSearch s newTimerId).2 ++
        (stopAutomaticJobSearch (startAutomaticJobSearch s newTimerId).1).2) [] = []) ∧
    initialSchedulerState = { intervalId := none, isRunning := false } := by
  refine ⟨?_, ?_, ?_, ?_, ?_, rfl⟩
  · intro hr
    unfold startAutomaticJobSearch
    rw [hr]
    rfl
  · intro hr
    unfold startAutomaticJobSearch
    rw [hr]
    rfl
  · unfold stopAutomaticJobSearch initialSchedulerState
    cases s.intervalId <;> rfl
  · intro id hid
    unfold stopAutomaticJobSearch
    rw [hid]
    simp [timersAfter, applySchedEvent]
  · intro hr
    unfold startAutomaticJobSearch
    rw [hr]
    simp only [Bool.false_eq_true, if_false]
    unfold stopAutomaticJobSearch
    simp [timersAfter, applySchedEvent]

/-- Claim C4 counterexample: `scrapeAllJobBoards` does not run the four
job-board scrapes sequentially — the orchestration it uses is
`Promise.allSettled`, which starts all scrapes without waiting for the
previous one to complete. -/
theorem c4_counterexample_not_sequential :
    ExecPlan.isSequential scrapeAllJobBoardsPlan = false := rfl

/-- Claim C4 (amended): `scrapeAllJobBoards` launches the four board scrapes
concurrently via `Promise.allSettled` in the fixed order Indeed, RemoteOK,
LinkedIn, Stack Overflow, then concatenates the fulfilled results, removes
duplicates by case-insensitive (title, company), and returns at most `limit`
jobs. -/
theorem c4_amended_concurrent_scraping (iR rR lR sR : Except String (List ScrapedJob))
    (limit : Nat) :
    scrapeAllJobBoardsPlan = ExecPlan.allSettledPlan
      [JobBoardTask.indeed, JobBoardTask.remoteOK, JobBoardTask.linkedIn,
        JobBoardTask.stackOverflow] ∧
    ExecPlan.isSequential scrapeAllJobBoardsPlan = false ∧
    (scrapeAllJobBoardsCombine iR rR lR sR limit).length ≤ limit ∧
    (scrapeAllJobBoardsCombine iR rR lR sR limit).Pairwise
      (fun a b => sameTitleCompany a b = false) := by
  refine ⟨rfl, rfl, ?_, ?_⟩
  · unfold scrapeAllJobBoardsCombine
    rw [List.length_take]
    exact min_le_left _ _
  · unfold scrapeAllJobBoardsCombine
    exact List.Pairwise.sublist (List.take_sublist _ _) (dedupJobs_pairwise _)

/-- Claim C9: every `JobMatchScore` produced by `analyzeJobMatch` has its
score in [0, 100] on both the LLM path (clamped) and the fallback path
(non-negative ratio capped at 100); `optimizeResume` likewise clamps its
match score into [0, 100]. -/
theorem c9_match_scores_always_in_range (analysis : Except String MatchAnalysis) (job : Job)
    (resume : Resume) (parsed : Except String OptimizeParsed) (rc : String) :
    (0 ≤ (analyzeJobMatch analysis job resume).score ∧
      (analyzeJobMatch analysis job resume).score ≤ 100) ∧
    (0 ≤ optimizeResumeScore parsed rc ∧ optimizeResumeScore parsed rc ≤ 100) := by
  constructor
  · cases analysis with
    | ok a =>
      constructor
      · exact le_max_left 0 _
      · exact max_le (by norm_num) (min_le_left _ _)
    | error e =>
      show 0 ≤ (basicJobMatch job resume).score ∧ (basicJobMatch job resume).score ≤ 100
      unfold basicJobMatch
      constructor
      · refine le_min (by norm_num) ?_
        positivity
      · exact min_le_left _ _
  · cases parsed with
    | ok r =>
      show (0 ≤ max 0 (min 100 (jsNumOrZero r.matchScore)) ∧
        max 0 (min 100 (jsNumOrZero r.matchScore)) ≤ 100)
      exact ⟨le_max_left 0 _, max_le (by norm_num) (min_le_left _ _)⟩
    | error e =>
      show (0 ≤ (0 : ℚ) ∧ (0 : ℚ) ≤ 100)
      norm_num

/-- Claim C2: the fallback match score is the capped set-intersection ratio
min(100, 100·|matching resume skills| / max(|job skills|, 1)), the job
skills are exactly the common-skills entries occurring case-insensitively in
the concatenated description and requirements, `skillsMatch` is the set of
resume skills substring-matching some job skill, and `missingSkills` is its
complement within the job skills. -/
theorem c2_basic_match_set_intersection_ratio (job : Job) (resume : Resume) :
    (basicJobMatch job resume).score =
      min 100 (100 * ((basicJobMatch job resume).skillsMatch.length : ℚ) /
        (max (extractSkillsFromText (jobMatchText job)).length 1 : ℚ)) ∧
    (basicJobMatch job resume).skillsMatch =
      (resume.skills.getD []).filter (fun skill =>
        (extractSkillsFromText (jobMatchText job)).any (fun jobSkill =>
          jsIncludes (jsToLower skill) (jsToLower jobSkill) ||
          jsIncludes (jsToLower jobSkill) (jsToLower skill))) ∧
    (basicJobMatch job resume).missingSkills =
      (extractSkillsFromText (jobMatchText job)).filter (fun skill =>
        !((basicJobMatch job resume).skillsMatch.contains skill)) ∧
    extractSkillsFromText (jobMatchText job) =
      commonSkills.filter (fun skill =>
        jsIncludes (jsToLower (jobMatchText job)) (jsToLower skill)) := by
  have hscore : ∀ a b : ℚ, (a / b) * 100 = 100 * a / b := by
    intro a b
    rw [div_mul_eq_mul_div, mul_comm]
  refine ⟨?_, rfl, rfl, rfl⟩
  unfold basicJobMatch
  simp only
  rw [hscore]

/-- Claim C3: with the LLM unavailable, both fallback skill extractors
return exactly the first match of each pattern in their fixed hard-coded
regex lists, in list order, substituting the fixed list Programming /
Software Development when nothing matches — so the result is always
non-empty. -/
theorem c3_fallback_skill_extraction_fixed_regex_list (content : String) :
    extractSkillsFallback content ≠ [] ∧
    openaiExtractSkillsFallback content ≠ [] ∧
    extractSkillsFallback content =
      (if llmSkillPatterns.filterMap (fun p => regexFirstMatch p content) = []
        then defaultFallbackSkills
        else llmSkillPatterns.filterMap (fun p => regexFirstMatch p content)) ∧
    openaiExtractSkillsFallback content =
      (if openaiSkillPatterns.filterMap (fun p => regexFirstMatch p content) = []
        then defaultFallbackSkills
        else openaiSkillPatterns.filterMap (fun p => regexFirstMatch p content)) := by
  have hllm := collectPatternMatches_eq_filterMap llmSkillPatterns content
  have hoai := collectPatternMatches_eq_filterMap openaiSkillPatterns content
  have h1 : extractSkillsFallback content =
      (if llmSkillPatterns.filterMap (fun p => regexFirstMatch p content) = []
        then defaultFallbackSkills
        else llmSkillPatterns.filterMap (fun p => regexFirstMatch p content)) := by
    unfold extractSkillsFallback
    rw [hllm]
    cases hl : llmSkillPatterns.filterMap (fun p => regexFirstMatch p content) with
    | nil => simp
    | cons x xs => simp
  have h2 : openaiExtractSkillsFallback content =
      (if openaiSkillPatterns.filterMap (fun p => regexFirstMatch p content) = []
        then defaultFallbackSkills
        else openaiSkillPatterns.filterMap (fun p => regexFirstMatch p content)) := by
    unfold openaiExtractSkillsFallback
    rw [hoai]
    cases hl : openaiSkillPatterns.filterMap (fun p => regexFirstMatch p content) with
    | nil => simp
    | cons x xs => simp
  refine ⟨?_, ?_, h1, h2⟩
  · rw [h1]
    cases hl : llmSkillPatterns.filterMap (fun p => regexFirstMatch p content) with
    | nil => simp [defaultFallbackSkills]
    | cons x xs => simp
  · rw [h2]
    cases hl : openaiSkillPatterns.filterMap (fun p => regexFirstMatch p content) with
    | nil => simp [defaultFallbackSkills]
    | cons x xs => simp

/-- Claim C6: each MemStorage create operation stores the new record under
the freshly generated UUID (appending it, since the id is not already
present in the corresponding Map), a subsequent get by that id returns
exactly the created record, all insert fields are preserved with defaults
filled, and no other entry changes. -/
theorem c6_creates_keyed_by_fresh_uuid_roundtrip (s : MemStore) (idJ idR idA idU : String)
    (now : Nat) (insJ : InsertJob) (insR : InsertResume) (insA : InsertJobApplication)
    (insU : InsertUser) (hJ : mapGet s.jobs idJ = none) (hR : mapGet s.resumes idR = none)
    (hA : mapGet s.jobApplications idA = none) (hU : mapGet s.users idU = none) :
    (getJob (createJob s idJ now insJ).2 idJ = some (createJob s idJ now insJ).1 ∧
      (createJob s idJ now insJ).1 =
        { id := idJ, title := insJ.title, company := insJ.company, location := insJ.location,
          description := insJ.description, requirements := insJ.requirements,
          salary := insJ.salary, jobBoard := insJ.jobBoard, externalId := insJ.externalId,
          url := insJ.url, isActive := insJ.isActive.getD true, discoveredAt := now } ∧
      (createJob s idJ now insJ).2.jobs = s.jobs ++ [(idJ, (createJob s idJ now insJ).1)] ∧
      (∀ k, k ≠ idJ → getJob (createJob s idJ now insJ).2 k = getJob s k)) ∧
    (getResume (createResume s idR now insR).2 idR = some (createResume s idR now insR).1 ∧
      (createResume s idR now insR).1 =
        { id := idR, userId := insR.userId, name := insR.name,
          originalFileName := insR.originalFileName, filePath := insR.filePath,
          content := insR.content, skills := insR.skills, experience := insR.experience,
          isDefault := insR.isDefault, createdAt := now } ∧
      (createResume s idR now insR).2.resumes =
        s.resumes ++ [(idR, (createResume s idR now insR).1)] ∧
      (∀ k, k ≠ idR → getResume (createResume s idR now insR).2 k = getResume s k)) ∧
    (getApplication (createApplication s idA now insA).2 idA =
        some (createApplication s idA now insA).1 ∧
      (createApplication s idA now insA).1 =
        { id := idA, userId := insA.userId, jobId := insA.jobId, resumeId := insA.resumeId,
          coverLetter := insA.coverLetter, status := insA.status.getD "pending",
          appliedAt := now, lastUpdated := now, notes := insA.notes } ∧
      (createApplication s idA now insA).2.jobApplications =
        s.jobApplications ++ [(idA, (createApplication s idA now insA).1)] ∧
      (∀ k, k ≠ idA →
        getApplication (createApplication s idA now insA).2 k = getApplication s k)) ∧
    (getUser (createUser s idU insU).2 idU = some (createUser s idU insU).1 ∧
      (createUser s idU insU).1 =
        { id := idU, username := insU.username, password := insU.password } ∧
      (createUser s idU insU).2.users = s.users ++ [(idU, (createUser s idU insU).1)] ∧
      (∀ k, k ≠ idU → getUser (createUser s idU insU).2 k = getUser s k)) := by
  refine ⟨⟨?_, rfl, ?_, ?_⟩, ⟨?_, rfl, ?_, ?_⟩, ⟨?_, rfl, ?_, ?_⟩, ⟨?_, rfl, ?_, ?_⟩⟩
  · exact mapGet_mapSet_self _ _ _
  · exact mapSet_fresh _ _ _ hJ
  · intro k hk
    exact mapGet_mapSet_ne _ _ _ _ hk
  · exact mapGet_mapSet_self _ _ _
  · exact mapSet_fresh _ _ _ hR
  · intro k hk
    exact mapGet_mapSet_ne _ _ _ _ hk
  · exact mapGet_mapSet_self _ _ _
  · exact mapSet_fresh _ _ _ hA
  · intro k hk
    exact mapGet_mapSet_ne _ _ _ _ hk
  · exact mapGet_mapSet_self _ _ _
  · exact mapSet_fresh _ _ _ hU
  · intro k hk
    exact mapGet_mapSet_ne _ _ _ _ hk

/-- Claim C6 witness: concrete creates against the empty store round-trip. -/
theorem c6_witness :
    getJob (createJob emptyStore "job-1" 5
      { title := "Dev", company := "Acme", location := none, description := some "d",
        requirements := none, salary := none, jobBoard := "Indeed", externalId := "x1",
        url := "u", isActive := none }).2 "job-1" =
      some (createJob emptyStore "job-1" 5
        { title := "Dev", company := "Acme", location := none, description := some "d",
          requirements := none, salary := none, jobBoard := "Indeed", externalId := "x1",
          url := "u", isActive := none }).1 ∧
    getUser (createUser emptyStore "user-1" { username := "ann", password := "pw" }).2
      "user-1" =
      some (createUser emptyStore "user-1" { username := "ann", password := "pw" }).1 := by
  have h := c6_creates_keyed_by_fresh_uuid_roundtrip emptyStore "job-1" "res-1" "app-1" "user-1"
    5
    { title := "Dev", company := "Acme", location := none, description := some "d",
      requirements := none, salary := none, jobBoard := "Indeed", externalId := "x1",
      url := "u", isActive := none }
    { userId := "user-1", name := "r", originalFileName := "r.pdf", filePath := "p",
      content := "c", skills := none, experience := none, isDefault := none }
    { userId := "user-1", jobId := "job-1", resumeId := "res-1", coverLetter := none,
      status := none, notes := none }
    { username := "ann", password := "pw" } rfl rfl rfl rfl
  exact ⟨h.1.1, h.2.2.2.1⟩

/-- Claim C8: the four MemStorage update operations return `undefined` and
leave the whole store unchanged when the id is missing; when the id is
present, the stored record becomes the spread-merge of the old record and
the patch, every other entry of that Map is unchanged, and the seven other
Maps are untouched. -/
theorem c8_updates_atomic_on_missing_ids (s : MemStore) (id : String) (pJ : JobPatch)
    (pR : ResumePatch) (pA : ApplicationPatch) (pC : JobSearchConfigPatch) (now : Nat) :
    (mapGet s.jobs id = none → updateJob s id pJ = (none, s)) ∧
    (∀ r, mapGet s.jobs id = some r →
      (updateJob s id pJ).1 = some (mergeJob r pJ) ∧
      mapGet (updateJob s id pJ).2.jobs id = some (mergeJob r pJ) ∧
      (∀ k, k ≠ id → mapGet (updateJob s id pJ).2.jobs k = mapGet s.jobs k) ∧
      (updateJob s id pJ).2.users = s.users ∧
      (updateJob s id pJ).2.jobSearchConfigs = s.jobSearchConfigs ∧
      (updateJob s id pJ).2.resumes = s.resumes ∧
      (updateJob s id pJ).2.jobApplications = s.jobApplications ∧
      (updateJob s id pJ).2.coverLetters = s.coverLetters ∧
      (updateJob s id pJ).2.automationLogs = s.automationLogs ∧
      (updateJob s id pJ).2.systemConfigs = s.systemConfigs) ∧
    (mapGet s.resumes id = none → updateResume s id pR = (none, s)) ∧
    (∀ r, mapGet s.resumes id = some r →
      (updateResume s id pR).1 = some (mergeResume r pR) ∧
      mapGet (updateResume s id pR).2.resumes id = some (mergeResume r pR) ∧
      (∀ k, k ≠ id → mapGet (updateResume s id pR).2.resumes k = mapGet s.resumes k) ∧
      (updateResume s id pR).2.users = s.users ∧
      (updateResume s id pR).2.jobSearchConfigs = s.jobSearchConfigs ∧
      (updateResume s id pR).2.jobs = s.jobs ∧
      (updateResume s id pR).2.jobApplications = s.jobApplications ∧
      (updateResume s id pR).2.coverLetters = s.coverLetters ∧
      (updateResume s id pR).2.automationLogs = s.automationLogs ∧
      (updateResume s id pR).2.systemConfigs = s.systemConfigs) ∧
    (mapGet s.jobApplications id = none → updateApplication s id pA now = (none, s)) ∧
    (∀ r, mapGet s.jobApplications id = some r →
      (updateApplication s id pA now).1 = some (mergeApplication r pA now) ∧
      mapGet (updateApplication s id pA now).2.jobApplications id =
        some (mergeApplication r pA now) ∧
      (∀ k, k ≠ id →
        mapGet (updateApplication s id pA now).2.jobApplications k =
          mapGet s.jobApplications k) ∧
      (updateApplication s id pA now).2.users = s.users ∧
      (updateApplication s id pA now).2.jobSearchConfigs = s.jobSearchConfigs ∧
      (updateApplication s id pA now).2.jobs = s.jobs ∧
      (updateApplication s id pA now).2.resumes = s.resumes ∧
      (updateApplication s id pA now).2.coverLetters = s.coverLetters ∧
      (updateApplication s id pA now).2.automationLogs = s.automationLogs ∧
      (updateApplication s id pA now).2.systemConfigs = s.systemConfigs) ∧
    (mapGet s.jobSearchConfigs id = none → updateJobSearchConfig s id pC = (none, s)) ∧
    (∀ r, mapGet s.jobSearchConfigs id = some r →
      (updateJobSearchConfig s id pC).1 = some (mergeJobSearchConfig r pC) ∧
      mapGet (updateJobSearchConfig s id pC).2.jobSearchConfigs id =
        some (mergeJobSearchConfig r pC) ∧
      (∀ k, k ≠ id →
        mapGet (updateJobSearchConfig s id pC).2.jobSearchConfigs k =
          mapGet s.jobSearchConfigs k) ∧
      (updateJobSearchConfig s id pC).2.users = s.users ∧
      (updateJobSearchConfig s id pC).2.jobs = s.jobs ∧
      (updateJobSearchConfig s id pC).2.resumes = s.resumes ∧
      (updateJobSearchConfig s id pC).2.jobApplications = s.jobApplications ∧
      (updateJobSearchConfig s id pC).2.coverLetters = s.coverLetters ∧
      (updateJobSearchConfig s id pC).2.automationLogs = s.automationLogs ∧
      (updateJobSearchConfig s id pC).2.systemConfigs = s.systemConfigs) := by
  refine ⟨?_, ?_, ?_, ?_, ?_, ?_, ?_, ?_⟩
  · intro h
    unfold updateJob
    rw [h]
  · intro r hr
    unfold updateJob
    rw [hr]
    exact ⟨rfl, mapGet_mapSet_self _ _ _, fun k hk => mapGet_mapSet_ne _ _ _ _ hk,
      rfl, rfl, rfl, rfl, rfl, rfl, rfl⟩
  · intro h
    unfold updateResume
    rw [h]
  · intro r hr
    unfold updateResume
    rw [hr]
    exact ⟨rfl, mapGet_mapSet_self _ _ _, fun k hk => mapGet_mapSet_ne _ _ _ _ hk,
      rfl, rfl, rfl, rfl, rfl, rfl, rfl⟩
  · intro h
    unfold updateApplication
    rw [h]
  · intro r hr
    unfold updateApplication
    rw [hr]
    exact ⟨rfl, mapGet_mapSet_self _ _ _, fun k hk => mapGet_mapSet_ne _ _ _ _ hk,
      rfl, rfl, rfl, rfl, rfl, rfl, rfl⟩
  · intro h
    unfold updateJobSearchConfig
    rw [h]
  · intro r hr
    unfold updateJobSearchConfig
    rw [hr]
    exact ⟨rfl, mapGet_mapSet_self _ _ _, fun k hk => mapGet_mapSet_ne _ _ _ _ hk,
      rfl, rfl, rfl, rfl, rfl, rfl, rfl⟩

/-! ## C7 infrastructure: the fetch trace of the scraper keyword loops -/

def fetchedKeywords (evs : List ScrapeEvent) : List String :=
  evs.filterMap (fun e => match e with
    | .fetched k => some k
    | .delayed _ => none)

theorem fetchedKeywords_append (a b : List ScrapeEvent) :
    fetchedKeywords (a ++ b) = fetchedKeywords a ++ fetchedKeywords b := by
  unfold fetchedKeywords
  exact List.filterMap_append a b _

theorem scrapeIndeedGo_fetched_take (world : String → FetchOutcome IndeedCard)
    (nowMs limit : Nat) :
    ∀ (ks : List String) (jobs : List ScrapedJob) (evs : List ScrapeEvent),
      ∃ n, fetchedKeywords (scrapeIndeedGo world nowMs limit ks jobs evs).2 =
        fetchedKeywords evs ++ ks.take n := by
  intro ks
  induction ks with
  | nil =>
    intro jobs evs
    exact ⟨0, by simp [scrapeIndeedGo]⟩
  | cons k rest ih =>
    intro jobs evs
    unfold scrapeIndeedGo
    cases hw : world k with
    | netThrow =>
      refine ⟨1, ?_⟩
      rw [fetchedKeywords_append]
      simp [fetchedKeywords]
    | httpError st =>
      rcases ih jobs (evs ++ [ScrapeEvent.fetched k]) with ⟨n, hn⟩
      refine ⟨n + 1, ?_⟩
      rw [hn, fetchedKeywords_append, List.take_succ_cons]
      simp [fetchedKeywords]
    | ok cards =>
      rcases ih (indeedPush nowMs limit jobs cards) (evs ++ [ScrapeEvent.fetched k, ScrapeEvent.delayed 2000]) with
        ⟨n, hn⟩
      refine ⟨n + 1, ?_⟩
      rw [hn, fetchedKeywords_append, List.take_succ_cons]
      simp [fetchedKeywords]

theorem scrapeIndeedGo_fetched_all (world : String → FetchOutcome IndeedCard)
    (nowMs limit : Nat) :
    ∀ (ks : List String) (jobs : List ScrapedJob) (evs : List ScrapeEvent),
      (∀ k ∈ ks, world k ≠ FetchOutcome.netThrow) →
      fetchedKeywords (scrapeIndeedGo world nowMs limit ks jobs evs).2 =
        fetchedKeywords evs ++ ks := by
  intro ks
  induction ks with
  | nil =>
    intro jobs evs _
    simp [scrapeIndeedGo]
  | cons k rest ih =>
    intro jobs evs hks
    unfold scrapeIndeedGo
    cases hw : world k with
    | netThrow => exact absurd hw (hks k (List.mem_cons_self k rest))
    | httpError st =>
      dsimp only
      rw [ih jobs (evs ++ [ScrapeEvent.fetched k]) (fun x hx => hks x (List.mem_cons_of_mem k hx)),
        fetchedKeywords_append]
      simp [fetchedKeywords]
    | ok cards =>
      dsimp only
      rw [ih (indeedPush nowMs limit jobs cards) (evs ++ [ScrapeEvent.fetched k, ScrapeEvent.delayed 2000])
        (fun x hx => hks x (List.mem_cons_of_mem k hx)), fetchedKeywords_append]
      simp [fetchedKeywords]

theorem scrapeIndeedGo_delays (world : String → FetchOutcome IndeedCard) (nowMs limit : Nat) :
    ∀ (ks : List String) (jobs : List ScrapedJob) (evs : List ScrapeEvent) (ms : Nat),
      ScrapeEvent.delayed ms ∈ (scrapeIndeedGo world nowMs limit ks jobs evs).2 →
      ScrapeEvent.delayed ms ∈ evs ∨ ms = 2000 := by
  intro ks
  induction ks with
  | nil =>
    intro jobs evs ms hmem
    exact Or.inl hmem
  | cons k rest ih =>
    intro jobs evs ms hmem
    unfold scrapeIndeedGo at hmem
    cases hw : world k with
    | netThrow =>
      rw [hw] at hmem
      rcases List.mem_append.mp hmem with h | h
      · exact Or.inl h
      · simp at h
    | httpError st =>
      rw [hw] at hmem
      rcases ih jobs (evs ++ [ScrapeEvent.fetched k]) ms hmem with h | h
      · rcases List.mem_append.mp h with h2 | h2
        · exact Or.inl h2
        · simp at h2
      · exact Or.inr h
    | ok cards =>
      rw [hw] at hmem
      rcases ih (indeedPush nowMs limit jobs cards) (evs ++ [ScrapeEvent.fetched k, ScrapeEvent.delayed 2000]) ms
          hmem with h | h
      · rcases List.mem_append.mp h with h2 | h2
        · exact Or.inl h2
        · simp at h2
          exact Or.inr h2
      · exact Or.inr h

theorem scrapeIndeedGo_jobs_after_throw (world : String → FetchOutcome IndeedCard)
    (nowMs limit : Nat) (k : String) (hk : world k = FetchOutcome.netThrow) :
    ∀ (pre : List String) (post : List String) (jobs : List ScrapedJob)
      (evs : List ScrapeEvent), (∀ x ∈ pre, world x ≠ FetchOutcome.netThrow) →
      (scrapeIndeedGo world nowMs limit (pre ++ k :: post) jobs evs).1 =
        (scrapeIndeedGo world nowMs limit pre jobs evs).1 := by
  intro pre
  induction pre with
  | nil =>
    intro post jobs evs _
    rw [List.nil_append]
    unfold scrapeIndeedGo
    rw [hk]
  | cons p pre' ih =>
    intro post jobs evs hpre
    rw [List.cons_append]
    unfold scrapeIndeedGo
    cases hw : world p with
    | netThrow => exact absurd hw (hpre p (List.mem_cons_self p pre'))
    | httpError st =>
      exact ih post jobs (evs ++ [ScrapeEvent.fetched p]) (fun x hx => hpre x (List.mem_cons_of_mem p hx))
    | ok cards =>
      exact ih post (indeedPush nowMs limit jobs cards) (evs ++ [ScrapeEvent.fetched p, ScrapeEvent.delayed 2000])
        (fun x hx => hpre x (List.mem_cons_of_mem p hx))

theorem scrapeLinkedInGo_fetched (worldL : String → FetchOutcome LinkedInCard)
    (nowMs limit : Nat) :
    ∀ (ks : List String) (jobs : List ScrapedJob) (evs : List ScrapeEvent),
      fetchedKeywords (scrapeLinkedInGo worldL nowMs limit ks jobs evs).2 =
        fetchedKeywords evs ++ ks := by
  intro ks
  induction ks with
  | nil =>
    intro jobs evs
    simp [scrapeLinkedInGo]
  | cons k rest ih =>
    intro jobs evs
    unfold scrapeLinkedInGo
    cases hw : worldL k with
    | netThrow =>
      dsimp only
      rw [ih jobs (evs ++ [ScrapeEvent.fetched k]), fetchedKeywords_append]
      simp [fetchedKeywords]
    | httpError st =>
      dsimp only
      rw [ih jobs (evs ++ [ScrapeEvent.fetched k]), fetchedKeywords_append]
      simp [fetchedKeywords]
    | ok cards =>
      dsimp only
      rw [ih (linkedInPush nowMs limit k jobs cards) (evs ++ [ScrapeEvent.fetched k, ScrapeEvent.delayed 3000]),
        fetchedKeywords_append]
      simp [fetchedKeywords]

theorem scrapeLinkedInGo_delays (worldL : String → FetchOutcome LinkedInCard)
    (nowMs limit : Nat) :
    ∀ (ks : List String) (jobs : List ScrapedJob) (evs : List ScrapeEvent) (ms : Nat),
      ScrapeEvent.delayed ms ∈ (scrapeLinkedInGo worldL nowMs limit ks jobs evs).2 →
      ScrapeEvent.delayed ms ∈ evs ∨ ms = 3000 := by
  intro ks
  induction ks with
  | nil =>
    intro jobs evs ms hmem
    exact Or.inl hmem
  | cons k rest ih =>
    intro jobs evs ms hmem
    unfold scrapeLinkedInGo at hmem
    cases hw : worldL k with
    | netThrow =>
      rw [hw] at hmem
      rcases ih jobs (evs ++ [ScrapeEvent.fetched k]) ms hmem with h | h
      · rcases List.mem_append.mp h with h2 | h2
        · exact Or.inl h2
        · simp at h2
      · exact Or.inr h
    | httpError st =>
      rw [hw] at hmem
      rcases ih jobs (evs ++ [ScrapeEvent.fetched k]) ms hmem with h | h
      · rcases List.mem_append.mp h with h2 | h2
        · exact Or.inl h2
        · simp at h2
      · exact Or.inr h
    | ok cards =>
      rw [hw] at hmem
      rcases ih (linkedInPush nowMs limit k jobs cards) (evs ++ [ScrapeEvent.fetched k, ScrapeEvent.delayed 3000]) ms
          hmem with h | h
      · rcases List.mem_append.mp h with h2 | h2
        · exact Or.inl h2
        · simp at h2
          exact Or.inr h2
      · exact Or.inr h

/-- Claim C7: the Indeed keyword loop issues at most one fetch per keyword
in list order and never retries; when no fetch throws, it issues exactly one
fetch per keyword; a non-ok response just skips to the next keyword; its
only waiting is fixed 2000 ms delays (3000 ms for LinkedIn); and a thrown
fetch is caught so the function still returns the jobs collected from the
keywords before the throw. -/
theorem c7_scraping_no_retries_fixed_delays (world : String → FetchOutcome IndeedCard)
    (worldL : String → FetchOutcome LinkedInCard) (nowMs : Nat)
    (keywords pre post : List String) (k : String) (limit : Nat) :
    (∃ n, fetchedKeywords (scrapeIndeedJobs world nowMs keywords limit).2 = keywords.take n) ∧
    ((∀ x ∈ keywords, world x ≠ FetchOutcome.netThrow) →
      fetchedKeywords (scrapeIndeedJobs world nowMs keywords limit).2 = keywords) ∧
    (∀ ms, ScrapeEvent.delayed ms ∈ (scrapeIndeedJobs world nowMs keywords limit).2 →
      ms = 2000) ∧
    ((∀ x ∈ pre, world x ≠ FetchOutcome.netThrow) → world k = FetchOutcome.netThrow →
      (scrapeIndeedJobs world nowMs (pre ++ k :: post) limit).1 =
        (scrapeIndeedJobs world nowMs pre limit).1) ∧
    fetchedKeywords (scrapeLinkedInJobs worldL nowMs keywords limit).2 = keywords ∧
    (∀ ms, ScrapeEvent.delayed ms ∈ (scrapeLinkedInJobs worldL nowMs keywords limit).2 →
      ms = 3000) := by
  refine ⟨?_, ?_, ?_, ?_, ?_, ?_⟩
  · rcases scrapeIndeedGo_fetched_take world nowMs limit keywords [] [] with ⟨n, hn⟩
    exact ⟨n, by simpa [fetchedKeywords] using hn⟩
  · intro hkw
    have := scrapeIndeedGo_fetched_all world nowMs limit keywords [] [] hkw
    simpa [fetchedKeywords] using this
  · intro ms hmem
    rcases scrapeIndeedGo_delays world nowMs limit keywords [] [] ms hmem with h | h
    · simp at h
    · exact h
  · intro hpre hk
    exact scrapeIndeedGo_jobs_after_throw world nowMs limit k hk pre post [] [] hpre
  · have := scrapeLinkedInGo_fetched worldL nowMs limit keywords [] []
    simpa [fetchedKeywords] using this
  · intro ms hmem
    rcases scrapeLinkedInGo_delays worldL nowMs limit keywords [] [] ms hmem with h | h
    · simp at h
    · exact h

/-- Concrete Indeed world for the C7 witness: the keyword bad throws, every
other keyword gets a 403. -/
def c7WorldI : String → FetchOutcome IndeedCard := fun k =>
  if k == "bad" then FetchOutcome.netThrow else FetchOutcome.httpError 403

def c7WorldL : String → FetchOutcome LinkedInCard := fun _ => FetchOutcome.ok []

/-- Claim C7 witness: a concrete run fetches each keyword once in order,
and a throw at the keyword bad leaves the jobs collected before it. -/
theorem c7_witness :
    fetchedKeywords (scrapeIndeedJobs c7WorldI 0 ["a", "b"] 20).2 = ["a", "b"] ∧
    (scrapeIndeedJobs c7WorldI 0 (["a"] ++ "bad" :: ["c"]) 20).1 =
      (scrapeIndeedJobs c7WorldI 0 ["a"] 20).1 ∧
    fetchedKeywords (scrapeLinkedInJobs c7WorldL 0 ["a", "b"] 20).2 = ["a", "b"] := by
  have h := c7_scraping_no_retries_fixed_delays c7WorldI c7WorldL 0 ["a", "b"] ["a"] ["c"]
    "bad" 20
  exact ⟨h.2.1 (by decide), h.2.2.2.1 (by decide) (by decide), h.2.2.2.2.1⟩

/-- Concrete store for the C8 witness, holding one record per updatable
Map under the key k1. -/
def c8Store : MemStore :=
  { users := []
    jobSearchConfigs := [("k1",
      { id := "k1", userId := "u1", keywords := ["dev"], locations := [], jobBoards := [],
        salaryMin := none, salaryMax := none, experienceLevel := none, isActive := true,
        createdAt := 0 })]
    resumes := [("k1",
      { id := "k1", userId := "u1", name := "r", originalFileName := "r.pdf", filePath := "p",
        content := "c", skills := none, experience := none, isDefault := none,
        createdAt := 0 })]
    jobs := [("k1",
      { id := "k1", title := "t", company := "c", location := none, description := none,
        requirements := none, salary := none, jobBoard := "b", externalId := "e", url := "u",
        isActive := true, discoveredAt := 0 })]
    jobApplications := [("k1",
      { id := "k1", userId := "u1", jobId := "j1", resumeId := "r1", coverLetter := none,
        status := "pending", appliedAt := 0, lastUpdated := 0, notes := none })]
    coverLetters := []
    automationLogs := []
    systemConfigs := [] }

/-- Claim C8 witness: updating a missing id leaves the store untouched and
returns nothing; updating a present id replaces exactly that record. -/
theorem c8_witness :
    updateJob c8Store "zz" { title := some "T2" } = (none, c8Store) ∧
    (updateJob c8Store "k1" { title := some "T2" }).1 =
      some (mergeJob
        { id := "k1", title := "t", company := "c", location := none, description := none,
          requirements := none, salary := none, jobBoard := "b", externalId := "e", url := "u",
          isActive := true, discoveredAt := 0 } { title := some "T2" }) ∧
    (updateApplication c8Store "zz" { status := some "submitted" } 9 = (none, c8Store)) := by
  have h1 := c8_updates_atomic_on_missing_ids c8Store "zz" { title := some "T2" } {}
    { status := some "submitted" } {} 9
  have h2 := c8_updates_atomic_on_missing_ids c8Store "k1" { title := some "T2" } {}
    { status := some "submitted" } {} 9
  refine ⟨h1.1 (by decide), ?_, h1.2.2.2.2.1 (by decide)⟩
  exact (h2.2.1
    { id := "k1", title := "t", company := "c", location := none, description := none,
      requirements := none, salary := none, jobBoard := "b", externalId := "e", url := "u",
      isActive := true, discoveredAt := 0 } (by decide)).1

/-- Concrete environment for the C1 witness: no OpenAI key, Ollama down,
every generation throws. -/
def c1WitnessEnv : LLMEnv :=
  { openaiApiKey := none
    openaiProbe := Except.error "no key"
    ollamaTags := Except.error "connection refused"
    generate := fun _ => Except.error "offline" }

/-- Claim C1 witness: with no key, Ollama down and a throwing generator, the
selected provider is huggingface and the fallback text is returned. -/
theorem c1_witness :
    getAvailableProvider c1WitnessEnv = Provider.huggingface ∧
    generateText c1WitnessEnv "please list each skill" =
      getFallbackResponse "please list each skill" := by
  have h := c1_llm_provider_selection_and_fallback c1WitnessEnv "please list each skill"
    "offline" rfl
  refine ⟨h.2.2.1.mpr ⟨?_, ?_⟩, h.2.2.2⟩
  · intro hk
    exact absurd hk.1 (by decide)
  · intro ht
    simp [c1WitnessEnv] at ht

/-- Claim C3 witness: both fallback extractors on a concrete resume are
non-empty. -/
theorem c3_witness :
    extractSkillsFallback "Shipped services in Python on AWS" ≠ [] ∧
    openaiExtractSkillsFallback "nothing relevant here" ≠ [] := by
  have h1 := c3_fallback_skill_extraction_fixed_regex_list "Shipped services in Python on AWS"
  have h2 := c3_fallback_skill_extraction_fixed_regex_list "nothing relevant here"
  exact ⟨h1.1, h2.2.1⟩

/-- Claim C5 witness: starting from a fresh instance registers the 6-hour
interval and runs once; stopping leaves no timer behind. -/
theorem c5_witness :
    startAutomaticJobSearch initialSchedulerState 7 =
      ({ intervalId := some 7, isRunning := true },
        [SchedEvent.searchRun, SchedEvent.intervalSet 7 21600000]) ∧
    timersAfter ((startAutomaticJobSearch initialSchedulerState 7).2 ++
      (stopAutomaticJobSearch (startAutomaticJobSearch initialSchedulerState 7).1).2) [] =
      [] := by
  have h := c5_scheduled_search_every_six_hours initialSchedulerState 7
  exact ⟨h.1 rfl, h.2.2.2.2.1 rfl⟩

/-! ## C10 counting lemmas -/

theorem cnt_mapSet_le {α : Type} (q : α → Bool) (m : StrMap α) (k : String) (v : α) :
    ((mapValues (mapSet m k v)).filter q).length ≤
      ((mapValues m).filter q).length + (if q v then 1 else 0) := by
  cases hget : mapGet m k with
  | none =>
    rw [mapSet_fresh m k v hget]
    unfold mapValues
    rw [List.map_append, List.filter_append, List.length_append]
    cases hq : q v <;> simp [List.filter_cons, hq]
  | some e =>
    rcases mapSet_split m k v e hget with ⟨l1, l2, h1, h2⟩
    rw [h2, h1]
    unfold mapValues
    rw [List.map_append, List.map_cons, List.filter_append, List.filter_cons,
      List.map_append, List.map_cons, List.filter_append, List.filter_cons]
    cases hqv : q v <;> cases hqe : q e <;>
      simp [List.length_append, hqv, hqe] <;> omega

theorem cnt_mapSet_eq {α : Type} (q : α → Bool) (m : StrMap α) (k : String) (v e : α)
    (hget : mapGet m k = some e) (hq : q v = q e) :
    ((mapValues (mapSet m k v)).filter q).length = ((mapValues m).filter q).length := by
  rcases mapSet_split m k v e hget with ⟨l1, l2, h1, h2⟩
  rw [h2, h1]
  unfold mapValues
  rw [List.map_append, List.map_cons, List.filter_append, List.filter_cons,
    List.map_append, List.map_cons, List.filter_append, List.filter_cons, hq]
  cases hqe : q e <;> simp [List.length_append]

theorem appCount_createCoverLetter (s : MemStore) (i : String) (n : Nat)
    (ins : InsertCoverLetter) (u j : String) :
    appCount (createCoverLetter s i n ins).2 u j = appCount s u j := rfl

theorem appCount_createAutomationLog (s : MemStore) (i : String) (n : Nat)
    (ins : InsertAutomationLog) (u j : String) :
    appCount (createAutomationLog s i n ins).2 u j = appCount s u j := rfl

theorem appCount_createApplication_le (s : MemStore) (i : String) (n : Nat)
    (ins : InsertJobApplication) (u j : String) :
    appCount (createApplication s i n ins).2 u j ≤
      appCount s u j + (if ins.userId == u && ins.jobId == j then 1 else 0) := by
  unfold appCount createApplication
  exact cnt_mapSet_le _ _ _ _

theorem appCount_updateApplication (s : MemStore) (i : String) (p : ApplicationPatch)
    (now : Nat) (u j : String) (huser : p.userId = none) (hjob : p.jobId = none) :
    appCount (updateApplication s i p now).2 u j = appCount s u j := by
  unfold updateApplication
  cases hget : mapGet s.jobApplications i with
  | none => rfl
  | some e =>
    dsimp only
    unfold appCount
    exact cnt_mapSet_eq _ _ _ _ _ hget
      (by unfold mergeApplication; rw [huser, hjob]; rfl)

theorem appCount_zero_of_not_any (s : MemStore) (u jid : String)
    (h : (getApplications s u).any (fun app => app.jobId == jid) = false) :
    appCount s u jid = 0 := by
  unfold appCount
  rw [List.length_eq_zero, List.filter_eq_nil_iff]
  intro a ha hq
  rw [Bool.and_eq_true, beq_iff_eq, beq_iff_eq] at hq
  have hmemf : a ∈ (mapValues s.jobApplications).filter (fun x => x.userId == u) := by
    rw [List.mem_filter]
    exact ⟨ha, by rw [beq_iff_eq]; exact hq.1⟩
  have hmems : a ∈ getApplications s u := by
    unfold getApplications
    exact ((List.mergeSort_perm _ _).mem_iff).mpr hmemf
  have := List.any_eq_false.mp h a hmems
  rw [beq_iff_eq] at this
  exact this hq.2

/-- Creating the cover letter and then the application adds at most one
application for the batch user, and none at all when the application's
job currently has no application from that user. -/
theorem appCount_create_chain_le (s : MemStore) (i1 i2 : String) (n : Nat)
    (insC : InsertCoverLetter) (insA : InsertJobApplication) (u j : String)
    (hu : insA.userId = u) (hj0 : appCount s u insA.jobId = 0) :
    appCount (createApplication (createCoverLetter s i1 n insC).2 i2 n insA).2 u j ≤
      max (appCount s u j) 1 := by
  refine le_trans (appCount_createApplication_le _ _ _ _ _ _) ?_
  rw [appCount_createCoverLetter]
  rw [hu, beq_self_eq_true, Bool.true_and]
  by_cases hj : insA.jobId = j
  · rw [← hj, hj0]
    simp [hj]
  · rw [if_neg (by simpa using hj)]
    simp only [Nat.add_zero]
    exact le_max_left _ _

theorem attempt_appCount_le (g : Nat → String) (now : Nat) (env : AttemptEnv)
    (userId : String) (job : Job) (w : World)
    (h0 : appCount w.store userId job.id = 0) (j : String) :
    appCount (attemptAutoApplication g now env userId job w).2.store userId j ≤
      max (appCount w.store userId j) 1 := by
  unfold attemptAutoApplication
  dsimp only
  by_cases hap : (shouldAutoApply w.store userId job env.analysis).shouldApply = false
  · rw [if_pos hap]
    exact le_max_left _ _
  · rw [if_neg hap]
    rcases hres : getResumes w.store userId with _ | ⟨r0, rest⟩
    · exact le_max_left _ _
    · dsimp only
      rw [appCount_createAutomationLog]
      by_cases hurl : (job.url != "" && jsIncludes job.url "apply") = true
      · rw [if_pos hurl]
        cases hbr : env.browser with
        | error e =>
          dsimp only
          exact appCount_create_chain_le _ _ _ _ _ _ _ _ rfl h0
        | ok b =>
          cases b with
          | false =>
            dsimp only
            exact appCount_create_chain_le _ _ _ _ _ _ _ _ rfl h0
          | true =>
            dsimp only
            rw [appCount_updateApplication _ _ _ _ _ _ rfl rfl]
            exact appCount_create_chain_le _ _ _ _ _ _ _ _ rfl h0
      · rw [if_neg hurl]
        exact appCount_create_chain_le _ _ _ _ _ _ _ _ rfl h0

theorem processBatchGo_appCount_le (g : Nat → String) (now : Nat) (env : Nat → AttemptEnv)
    (userId : String) :
    ∀ (ks : List Job) (idx attempted : Nat) (results : List AutoApplicationResult)
      (w : World) (j : String),
      appCount (processBatchGo g now env userId ks idx attempted results w).2.store userId j ≤
        max (appCount w.store userId j) 1 := by
  intro ks
  induction ks with
  | nil =>
    intro idx att res w j
    exact le_max_left _ _
  | cons job rest ih =>
    intro idx att res w j
    unfold processBatchGo
    by_cases hbreak : maxAutoApplications ≤ att
    · rw [if_pos hbreak]
      exact le_max_left _ _
    · rw [if_neg hbreak]
      by_cases hskip :
          (getApplications w.store userId).any (fun app => app.jobId == job.id) = true
      · rw [if_pos hskip]
        exact ih (idx + 1) att res w j
      · rw [if_neg hskip]
        have h0 := appCount_zero_of_not_any w.store userId job.id
          (Bool.not_eq_true _ ▸ hskip : _ = false)
        dsimp only
        by_cases hsucc : (attemptAutoApplication g now (env idx) userId job w).1.success = true
        · rw [if_pos hsucc]
          refine le_trans (ih (idx + 1) (att + 1) _ _ j) ?_
          exact max_le (attempt_appCount_le g now (env idx) userId job w h0 j)
            (le_max_right _ 1)
        · rw [if_neg hsucc]
          refine le_trans (ih (idx + 1) att _ _ j) ?_
          exact max_le (attempt_appCount_le g now (env idx) userId job w h0 j)
            (le_max_right _ 1)

theorem processBatchGo_success_le (g : Nat → String) (now : Nat) (env : Nat → AttemptEnv)
    (userId : String) :
    ∀ (ks : List Job) (idx attempted : Nat) (results : List AutoApplicationResult)
      (w : World),
      List.countP (fun r => r.success)
          (processBatchGo g now env userId ks idx attempted results w).1 ≤
        List.countP (fun r => r.success) results + (maxAutoApplications - attempted) := by
  intro ks
  induction ks with
  | nil =>
    intro idx att res w
    simp [processBatchGo]
  | cons job rest ih =>
    intro idx att res w
    unfold processBatchGo
    by_cases hbreak : maxAutoApplications ≤ att
    · rw [if_pos hbreak]
      simp
    · rw [if_neg hbreak]
      by_cases hskip :
          (getApplications w.store userId).any (fun app => app.jobId == job.id) = true
      · rw [if_pos hskip]
        exact ih (idx + 1) att res w
      · rw [if_neg hskip]
        dsimp only
        by_cases hsucc : (attemptAutoApplication g now (env idx) userId job w).1.success = true
        · rw [if_pos hsucc]
          refine le_trans (ih (idx + 1) (att + 1) _ _) ?_
          rw [List.countP_append]
          have hone : List.countP (fun r => r.success)
              [(attemptAutoApplication g now (env idx) userId job w).1] = 1 := by
            simp [List.countP_cons, hsucc]
          rw [hone]
          have hlt : att < maxAutoApplications := Nat.lt_of_not_le hbreak
          omega
        · rw [if_neg hsucc]
          refine le_trans (ih (idx + 1) att _ _) ?_
          rw [List.countP_append]
          have hzero : List.countP (fun r => r.success)
              [(attemptAutoApplication g now (env idx) userId job w).1] = 0 := by
            simp [List.countP_cons, hsucc]
          rw [hzero]
          omega

/-- Claim C10: a batch produces at most 5 successful auto-applications (the
loop stops counting successes at the limit), and through this path no job
ends up with two applications from the batch user: every per-job application
count is at most 1 unless it already exceeded 1 before the batch. -/
theorem c10_auto_application_batches_bounded_and_duplicate_free (g : Nat → String)
    (now : Nat) (env : Nat → AttemptEnv) (userId : String) (jobs : List Job) (w : World) :
    List.countP (fun r => r.success)
        (processJobBatchForAutoApplications g now env userId jobs w).1 ≤ 5 ∧
    ∀ j, appCount (processJobBatchForAutoApplications g now env userId jobs w).2.store
        userId j ≤ max (appCount w.store userId j) 1 := by
  constructor
  · have h := processBatchGo_success_le g now env userId jobs 0 0 [] w
    simpa [maxAutoApplications] using h
  · intro j
    exact processBatchGo_appCount_le g now env userId jobs 0 0 [] w j

end JobFindr
